import Mathlib

/-!
Verification of the mockview interview-orchestration engine.

The definitions below are a shallow embedding of the TypeScript source:

* `src/lib/services/interview-engine.ts` — plan builder (`generateQuestionPlan`,
  `initializeInterviewState`), evaluator normalization (`evaluateResponse`),
  decision engine (`determineNextAction`), and the orchestrator
  (`startInterview`, `processAnswer`);
* `src/lib/ai/ollama.ts` — the generation gateway (`generateCompletion`,
  `generateJSON`);
* `src/app/api/interview/finish/route.ts` — the finish-early endpoint.

JavaScript numbers are modeled as `ℚ` (scores, weights) or `ℕ`/`ℤ`
(counters, ids, timestamps); `Math.round` is `⌊x + 1/2⌋` (`jsRound`),
which agrees with the JS semantics of rounding half toward +∞.
Database rows are lists of records; the persistence layer stores exactly
what the orchestrator writes, so `create`/`update`/`destroy` become pure
list operations.  A thrown JS `Error` is modeled as `Except.error` carrying
the error message (`JsError`); calls to the generative backend are modeled
by explicit oracle parameters giving the outcome of each call.
-/

namespace Mockview

/-- JS `Math.round`: round half toward positive infinity. -/
def jsRound (x : ℚ) : ℤ := ⌊x + 1/2⌋

/-- A thrown (untyped) JavaScript `Error`; only its message survives. -/
structure JsError where
  message : String
deriving DecidableEq

/-- `suggested_follow_up` field of the backend evaluation payload:
`'clarify' | 'probe' | 'none'`. -/
inductive SuggestedFollowUp
  | clarify
  | probe
  | noSuggestion
deriving DecidableEq

/-- `FollowUpType = 'clarify' | 'probe'` from `src/lib/types`. -/
inductive FollowUpType
  | clarify
  | probe
deriving DecidableEq

/-- `EvaluationResult` interface of `interview-engine.ts` (the parsed backend
payload for one answer evaluation). -/
structure EvaluationResult where
  relevance : ℚ
  depth : ℚ
  accuracy : ℚ
  examples : ℚ
  communication : ℚ
  overall_score : ℚ
  reasoning : String
  suggested_follow_up : SuggestedFollowUp
  key_points_covered : List String
  missed_opportunities : List String
deriving DecidableEq

/-- The action strings of `determineNextAction`. -/
inductive ActionKind
  | follow_up
  | next_question
  | next_competency
  | end_interview
deriving DecidableEq

/-- Return shape of `determineNextAction`:
`{ action, followUpType? }`. -/
structure NextAction where
  action : ActionKind
  followUpType : Option FollowUpType := none
deriving DecidableEq

/-- `determineNextAction` from `interview-engine.ts` lines 221-246, verbatim:
strong answer or max depth → next_question; weak answer with room → clarify;
score exactly 3 with room and a probe suggestion → probe; otherwise
next_question. -/
def determineNextAction (evaluation : EvaluationResult)
    (currentDepth maxDepth : ℕ) : NextAction :=
  let score := evaluation.overall_score
  let suggested := evaluation.suggested_follow_up
  if score ≥ 4 ∨ currentDepth ≥ maxDepth then
    { action := .next_question }
  else if score ≤ 2 ∧ currentDepth < maxDepth then
    { action := .follow_up, followUpType := some .clarify }
  else if score = 3 ∧ currentDepth < maxDepth ∧ suggested = .probe then
    { action := .follow_up, followUpType := some .probe }
  else
    { action := .next_question }

/-- Modelled from the spec: the Decision Engine's four-rule priority table
(spec §4.4), written from the spec text, to be compared with
`determineNextAction`. -/
def decideSpec (overall_score : ℚ) (depth maxDepth : ℕ)
    (suggested : SuggestedFollowUp) : NextAction :=
  if overall_score ≥ 4 ∨ depth ≥ maxDepth then
    { action := .next_question }
  else if overall_score ≤ 2 ∧ depth < maxDepth then
    { action := .follow_up, followUpType := some .clarify }
  else if overall_score = 3 ∧ depth < maxDepth ∧ suggested = .probe then
    { action := .follow_up, followUpType := some .probe }
  else
    { action := .next_question }

/-- `evaluateResponse` normalization section (`interview-engine.ts` lines
210-213): given the parsed backend payload, the only normalization performed
is `result.overall_score = Math.max(1, Math.min(5, result.overall_score))`;
every other field is returned unchanged. -/
def evaluateResponse (result : EvaluationResult) : EvaluationResult :=
  { result with overall_score := max 1 (min 5 result.overall_score) }

/-- Modelled from the spec: clamp a score to the interval `[1,5]` (spec §4.3). -/
def clampScore (x : ℚ) : ℚ := max 1 (min 5 x)

/-- `CompetencyArea` from `src/lib/types`: name, weight, skill tags. -/
structure CompetencyArea where
  name : String
  weight : ℚ
  skills : List String
deriving DecidableEq

/-- One entry of `QuestionPlan.competencies`. -/
structure PlannedCompetency where
  name : String
  weight : ℚ
  planned_questions : ℤ
  skills_to_cover : List String
deriving DecidableEq

/-- `QuestionPlan` from `src/lib/types`. -/
structure QuestionPlan where
  competencies : List PlannedCompetency
  total_planned_questions : ℤ
  estimated_duration_minutes : ℤ
deriving DecidableEq

/-- `generateQuestionPlan` (`interview-engine.ts` lines 72-98).  The source
reads the target count from `config.interview.maxQuestions`; it is passed
here as the parameter `targetTotal`.  Weight normalization divides by the
observed sum when positive, else splits uniformly (`1 / competencies.length`);
each area gets `max(1, Math.round(normalizedWeight * targetTotal))` questions;
the recorded total is the actual sum. -/
def generateQuestionPlan (competency_areas : List CompetencyArea)
    (targetTotal : ℕ) : QuestionPlan :=
  let totalWeight : ℚ := (competency_areas.map CompetencyArea.weight).sum
  let plannedCompetencies := competency_areas.map fun comp =>
    let normalizedWeight : ℚ :=
      if totalWeight > 0 then comp.weight / totalWeight
      else 1 / (competency_areas.length : ℚ)
    let plannedQuestions : ℤ := max 1 (jsRound (normalizedWeight * targetTotal))
    ({ name := comp.name, weight := comp.weight,
       planned_questions := plannedQuestions,
       skills_to_cover := comp.skills } : PlannedCompetency)
  let actualTotal : ℤ := (plannedCompetencies.map PlannedCompetency.planned_questions).sum
  { competencies := plannedCompetencies,
    total_planned_questions := actualTotal,
    estimated_duration_minutes := actualTotal * 4 }

/-! ## Generation Gateway (`src/lib/ai/ollama.ts`)

The backend (an HTTP `fetch` against the Ollama server) is modeled as an
oracle `ℕ → BackendOutcome` giving the outcome of each attempt. -/

/-- Outcome of one `fetch` of `/api/generate`: the request resolves with a
2xx body, resolves with a non-ok status, or rejects (network error or
`AbortSignal` timeout). -/
inductive BackendOutcome
  | success (responseBody : String)
  | httpError (status : ℕ) (statusText : String)
  | failure (message : String)
deriving DecidableEq

/-- The message recorded in `lastError` for one failed attempt: a non-ok
response throws `Ollama returned <status>: <statusText>`; a rejected fetch
keeps its own message. -/
def attemptErrorMessage : BackendOutcome → Option String
  | .success _ => none
  | .httpError status statusText =>
      some ("Ollama returned " ++ toString status ++ ": " ++ statusText)
  | .failure msg => some msg

/-- The retry loop of `generateCompletion` (`ollama.ts` lines 45-76) over the
remaining attempt indices, threading `lastError`.  When the budget is
exhausted it throws `Ollama failed after N attempts: <lastError?.message>`
(the JS template renders a null `lastError` as the text `undefined`). -/
def generateCompletionGo (backend : ℕ → BackendOutcome) (maxRetries : ℕ) :
    List ℕ → Option String → Except JsError String
  | [], lastError =>
      .error ⟨"Ollama failed after " ++ toString maxRetries ++ " attempts: "
              ++ lastError.getD ("undefined")⟩
  | attempt :: rest, lastError =>
      match backend attempt with
      | .success body => .ok body
      | o => generateCompletionGo backend maxRetries rest (attemptErrorMessage o)

/-- `generateCompletion` (`ollama.ts` lines 20-77): up to
`config.ollama.maxRetries` attempts; first success returns the body;
exhaustion throws an untyped `Error`. -/
def generateCompletion (backend : ℕ → BackendOutcome) (maxRetries : ℕ) :
    Except JsError String :=
  generateCompletionGo backend maxRetries (List.range maxRetries) none

/-- The inner loop of `generateJSON` (`ollama.ts` lines 88-109): up to 3
attempts; each attempt runs a full `generateCompletion` retry round and then
`JSON.parse` (modeled by the `parse` oracle, whose `.error` is the thrown
`SyntaxError`).  Exhaustion throws
`Failed to get valid JSON from Ollama: <lastError?.message>`. -/
def generateJSONGo {α : Type} (backend : ℕ → ℕ → BackendOutcome)
    (parse : String → Except JsError α) (maxRetries : ℕ) :
    List ℕ → Option String → Except JsError α
  | [], lastError =>
      .error ⟨"Failed to get valid JSON from Ollama: "
              ++ lastError.getD ("undefined")⟩
  | attempt :: rest, lastError =>
      match generateCompletion (backend attempt) maxRetries with
      | .error e => generateJSONGo backend parse maxRetries rest (some e.message)
      | .ok response =>
          match parse response with
          | .ok parsed => .ok parsed
          | .error e => generateJSONGo backend parse maxRetries rest (some e.message)

/-- `generateJSON` (`ollama.ts` lines 83-112). -/
def generateJSON {α : Type} (backend : ℕ → ℕ → BackendOutcome)
    (parse : String → Except JsError α) (maxRetries : ℕ) : Except JsError α :=
  generateJSONGo backend parse maxRetries (List.range 3) none

/-- Whether inner attempt `i` of `generateJSON` fails (its completion round
throws, or the body does not parse). -/
def innerAttemptFails {α : Type} (backend : ℕ → ℕ → BackendOutcome)
    (parse : String → Except JsError α) (maxRetries i : ℕ) : Bool :=
  match generateCompletion (backend i) maxRetries with
  | .error _ => true
  | .ok body =>
      match parse body with
      | .error _ => true
      | .ok _ => false

/-! ## Orchestrator data model

One session's slice of the database.  `interviews` is kept most-recent-first
(`Interview.create` prepends), which realizes both the orderless `findOne`
of `startInterview`/`processAnswer` and the `created_at DESC` ordering of the
finish endpoint on this single-session slice. -/

/-- `CompetencyStatus = 'pending' | 'in_progress' | 'completed'`. -/
inductive CompetencyStatus
  | pending
  | in_progress
  | completed
deriving DecidableEq

/-- `InterviewStatus` from `src/lib/types`. -/
inductive InterviewStatus
  | pending
  | in_progress
  | completed
  | cancelled
deriving DecidableEq

/-- One value of the `InterviewState.competencies` record. -/
structure CompetencyState where
  status : CompetencyStatus
  questions_asked : ℕ
  current_depth : ℕ
  avg_score : ℚ
deriving DecidableEq

/-- `InterviewState` from `src/lib/types`; the JS
`Record<string, CompetencyState>` is an association list (keys are the
competency names, unique in practice). -/
structure InterviewState where
  competencies : List (String × CompetencyState)
  total_questions : ℕ
  estimated_remaining : ℤ
  current_competency : String
deriving DecidableEq

/-- Lookup `state.competencies[name]`. -/
def findComp (m : List (String × CompetencyState)) (name : String) :
    Option CompetencyState :=
  (m.find? fun p => p.1 == name).map Prod.snd

/-- In-place mutation of the entry `state.competencies[name]` (a no-op when
the key is absent, matching the guarded `if (compState)` writes in the
source). -/
def updateComp (m : List (String × CompetencyState)) (name : String)
    (f : CompetencyState → CompetencyState) : List (String × CompetencyState) :=
  m.map fun p => if p.1 == name then (p.1, f p.2) else p

/-- The source's `if (compState) { ...mutate compState... }` pattern: update
the named competency entry when it exists, otherwise leave the state
untouched. -/
def updateCompIfPresent (state : InterviewState) (name : String)
    (f : CompetencyState → CompetencyState) : InterviewState :=
  if (findComp state.competencies name).isSome then
    { state with competencies := updateComp state.competencies name f }
  else state

/-- JS array indexing `arr[i]` with a possibly negative index (`undefined`
when out of range). -/
def jsIndex {α : Type} (l : List α) (i : ℤ) : Option α :=
  if 0 ≤ i then l[i.toNat]? else none

/-- The `currentComp && questionsInComp < currentComp.planned_questions`
test of the advance branch (lines 513): false when `currentComp` is
undefined. -/
def moreQuestionsNeeded (currentComp : Option PlannedCompetency)
    (questionsInComp : ℕ) : Bool :=
  match currentComp with
  | some cc => decide ((questionsInComp : ℤ) < cc.planned_questions)
  | none => false

/-- `initializeInterviewState` (`interview-engine.ts` lines 103-126): every
planned competency starts `pending` with zero counters; the first competency
(when its name is non-empty) is set `in_progress`. -/
def initializeInterviewState (questionPlan : QuestionPlan) : InterviewState :=
  let competencies := questionPlan.competencies.map fun comp =>
    (comp.name, ({ status := .pending, questions_asked := 0,
                   current_depth := 0, avg_score := 0 } : CompetencyState))
  let firstCompetency := ((questionPlan.competencies.head?).map
    PlannedCompetency.name).getD ("")
  let competencies2 :=
    if firstCompetency ≠ "" then
      updateComp competencies firstCompetency fun c => { c with status := .in_progress }
    else competencies
  { competencies := competencies2,
    total_questions := 0,
    estimated_remaining := questionPlan.total_planned_questions,
    current_competency := firstCompetency }

/-- A row of the `questions` table. -/
structure QuestionRec where
  id : ℕ
  interview_id : ℕ
  parent_id : Option ℕ := none
  sequence_num : ℕ
  competency : String
  question_text : String
  depth_level : ℕ
deriving DecidableEq

/-- `AnswerEvaluation` from `src/lib/types` (stored on the answer row). -/
structure AnswerEvaluation where
  relevance : ℚ
  depth : ℚ
  accuracy : ℚ
  examples : ℚ
  communication : ℚ
  reasoning : String
  overall_score : ℚ
  suggested_follow_up : Option FollowUpType
deriving DecidableEq

/-- A row of the `answers` table. -/
structure AnswerRec where
  question_id : ℕ
  answer_text : String
  response_time_ms : Option ℕ
  evaluation : AnswerEvaluation
  quality_score : ℤ
deriving DecidableEq

/-- A row of the `interviews` table (for the one session under study). -/
structure InterviewRec where
  id : ℕ
  status : InterviewStatus
  question_plan : QuestionPlan
  interview_state : InterviewState
  started_at : Option ℤ := none
  completed_at : Option ℤ := none
deriving DecidableEq

/-- The session's database slice.  `next_interview_id` / `next_question_id`
model the auto-increment primary keys. -/
structure DB where
  session_status : String
  interviews : List InterviewRec
  questions : List QuestionRec
  answers : List AnswerRec
  next_interview_id : ℕ
  next_question_id : ℕ
deriving DecidableEq

/-- `config.interview` (`src/lib/config.ts`): the two knobs the orchestrator
reads. -/
structure InterviewConfig where
  maxFollowUpDepth : ℕ
  maxQuestions : ℕ
deriving DecidableEq

/-- `GeneratedQuestion` interface of `interview-engine.ts`. -/
structure GeneratedQuestion where
  question_text : String
  competency : String
  expected_topics : List String
  difficulty : Option String := none
  type : String
  follow_up_type : Option FollowUpType := none
  transition : Option String := none
deriving DecidableEq

/-- `nextQuestion` field of the `processAnswer` result. -/
structure NextQuestionInfo where
  id : ℕ
  text : String
  competency : String
  isFollowUp : Bool
  depth : ℕ
deriving DecidableEq

/-- `progress` field of the orchestrator results. -/
structure Progress where
  current : ℕ
  estimated_total : ℤ
  competency : String
deriving DecidableEq

/-- Result shape of `processAnswer`. -/
structure AnswerResult where
  evaluation : AnswerEvaluation
  nextQuestion : Option NextQuestionInfo
  progress : Progress
  isComplete : Bool
deriving DecidableEq

/-- Result shape of `startInterview`. -/
structure StartResult where
  interviewId : ℕ
  questionId : ℕ
  questionText : String
  questionCompetency : String
  progress : Progress
deriving DecidableEq

/-- Number of question rows belonging to interview `iid`
(`Question.count({ where: { interview_id } })`). -/
def qCount (db : DB) (iid : ℕ) : ℕ :=
  db.questions.countP fun q => q.interview_id == iid

/-- The `AnswerEvaluation` object built by `processAnswer` (lines 394-404):
a `'none'` suggestion becomes `undefined`. -/
def mkAnswerEvaluation (evalResult : EvaluationResult) : AnswerEvaluation :=
  { relevance := evalResult.relevance, depth := evalResult.depth,
    accuracy := evalResult.accuracy, examples := evalResult.examples,
    communication := evalResult.communication, reasoning := evalResult.reasoning,
    overall_score := evalResult.overall_score,
    suggested_follow_up :=
      match evalResult.suggested_follow_up with
      | .noSuggestion => none
      | .clarify => some .clarify
      | .probe => some .probe }

/-- Body of `processAnswer` (lines 385-591) after the lookups succeeded and
`evaluateResponse` returned `evalResult` (its outcome, like every backend
call, is an explicit oracle argument).  The sequence, kept in source order:
store the `Answer` row; bump `total_questions` and the per-competency
running stats; run `determineNextAction`; count this interview's questions;
end the interview when the count reached `maxQuestions` or every competency
is completed; otherwise create the follow-up or the next root question and
persist the state with `estimated_remaining` decremented (`Math.max(0, x-1)`).
Writes that the source performed before a throw (the `Answer` row, a created
`Question`) stay in the returned database, mirroring the persistence layer. -/
def processAnswerCore (cfg : InterviewConfig) (jdAreas : List CompetencyArea)
    (db : DB) (interview : InterviewRec) (question : QuestionRec)
    (questionId : ℕ) (answerText : String) (responseTimeMs : Option ℕ)
    (evalResult : EvaluationResult)
    (genOutcome : Except JsError GeneratedQuestion)
    (now : ℤ) : Except JsError AnswerResult × DB :=
  let evaluation := mkAnswerEvaluation evalResult
  let newAnswer : AnswerRec :=
    { question_id := questionId, answer_text := answerText,
      response_time_ms := responseTimeMs, evaluation := evaluation,
      quality_score := jsRound evalResult.overall_score }
  let db1 : DB := { db with answers := db.answers ++ [newAnswer] }
  let state0 := interview.interview_state
  let state1 := { state0 with total_questions := state0.total_questions + 1 }
  let state2 := updateCompIfPresent state1 question.competency fun c =>
    { c with questions_asked := c.questions_asked + 1,
             avg_score := (c.avg_score * (c.questions_asked : ℚ)
               + evalResult.overall_score) / ((c.questions_asked : ℚ) + 1) }
  let nextAction := determineNextAction evalResult question.depth_level cfg.maxFollowUpDepth
  let questionsAsked := qCount db1 interview.id
  let allCompleted := state2.competencies.all fun p => p.2.status == CompetencyStatus.completed
  let finishTurn : InterviewState → DB → NextQuestionInfo →
      Except JsError AnswerResult × DB := fun stateF dbF nq =>
    let stateG := { stateF with
      estimated_remaining := max 0 (stateF.estimated_remaining - 1) }
    let interview2 := { interview with interview_state := stateG }
    let dbG := { dbF with
      interviews := dbF.interviews.map
        (fun i => if i.id == interview.id then interview2 else i) }
    (.ok { evaluation := evaluation, nextQuestion := some nq,
           progress := { current := questionsAsked + 1,
                         estimated_total := interview.question_plan.total_planned_questions,
                         competency := nq.competency },
           isComplete := false }, dbG)
  let generateRoot : CompetencyArea → InterviewState → DB →
      Except JsError AnswerResult × DB := fun target stateT dbT =>
    match genOutcome with
    | .error e => (.error e, dbT)
    | .ok generated =>
      let newQuestion : QuestionRec :=
        { id := dbT.next_question_id, interview_id := interview.id,
          parent_id := none, sequence_num := questionsAsked + 1,
          competency := target.name, question_text := generated.question_text,
          depth_level := 0 }
      let db2 := { dbT with
        questions := dbT.questions ++ [newQuestion],
        next_question_id := dbT.next_question_id + 1 }
      finishTurn stateT db2
        ⟨newQuestion.id, newQuestion.question_text, newQuestion.competency, false, 0⟩
  if questionsAsked ≥ cfg.maxQuestions ∨ allCompleted = true then
    let interview2 := { interview with
      status := .completed, interview_state := state2, completed_at := some now }
    let db2 := { db1 with
      interviews := db1.interviews.map
        (fun i => if i.id == interview.id then interview2 else i),
      session_status := "completed" }
    (.ok { evaluation := evaluation, nextQuestion := none,
           progress := { current := questionsAsked,
                         estimated_total := (questionsAsked : ℤ),
                         competency := question.competency },
           isComplete := true }, db2)
  else
    match nextAction.action, nextAction.followUpType with
    | ActionKind.follow_up, some _ =>
      match genOutcome with
      | .error e => (.error e, db1)
      | .ok followUp =>
        let newQuestion : QuestionRec :=
          { id := db1.next_question_id, interview_id := interview.id,
            parent_id := some questionId, sequence_num := questionsAsked + 1,
            competency := question.competency,
            question_text := followUp.question_text,
            depth_level := question.depth_level + 1 }
        let db2 := { db1 with
          questions := db1.questions ++ [newQuestion],
          next_question_id := db1.next_question_id + 1 }
        let state3 := updateCompIfPresent state2 question.competency fun c =>
          { c with current_depth := newQuestion.depth_level }
        finishTurn state3 db2
          ⟨newQuestion.id, newQuestion.question_text, newQuestion.competency,
           true, newQuestion.depth_level⟩
    | _, _ =>
      let plan := interview.question_plan
      let currentCompIdx : ℤ :=
        ((plan.competencies.findIdx? (fun c => c.name == question.competency)).map
          (fun i => (i : ℤ))).getD (-1)
      let currentComp : Option PlannedCompetency :=
        jsIndex plan.competencies currentCompIdx
      let questionsInComp := db1.questions.countP fun q =>
        q.interview_id == interview.id && q.competency == question.competency
          && q.depth_level == 0
      if moreQuestionsNeeded currentComp questionsInComp then
        match jdAreas.find? (fun c => c.name == question.competency) with
        | none => (.error ⟨"TypeError: Cannot read properties of undefined"⟩, db1)
        | some target => generateRoot target state2 db1
      else
        let state3 := updateCompIfPresent state2 question.competency fun c =>
          { c with status := .completed, current_depth := 0 }
        let nextCompIdx := currentCompIdx + 1
        match jsIndex plan.competencies nextCompIdx with
        | some nextComp =>
          let state4 := { state3 with current_competency := nextComp.name }
          let state5 := updateCompIfPresent state4 nextComp.name fun c =>
            { c with status := .in_progress }
          match jdAreas.find? (fun c => c.name == nextComp.name) with
          | none => (.error ⟨"TypeError: Cannot read properties of undefined"⟩, db1)
          | some target => generateRoot target state5 db1
        | none =>
          let interview2 := { interview with
            status := .completed, interview_state := state3, completed_at := some now }
          let db2 := { db1 with
            interviews := db1.interviews.map
              (fun i => if i.id == interview.id then interview2 else i) }
          (.ok { evaluation := evaluation, nextQuestion := none,
                 progress := { current := questionsAsked,
                               estimated_total := (questionsAsked : ℤ),
                               competency := question.competency },
                 isComplete := true }, db2)

/-- `processAnswer` (`interview-engine.ts` lines 339-591).  `sessionOk`
models the session lookup, `jdData` the parsed CV/JD pair (`some areas` when
both are present), `evalOutcome` / `genOutcome` the outcomes of the at most
one evaluation call and one generation call of this turn, `now` the wall
clock.  The guards appear in source order: session, active interview,
question (by primary key, then interview ownership), session data,
evaluation. -/
def processAnswer (cfg : InterviewConfig) (sessionOk : Bool)
    (jdData : Option (List CompetencyArea)) (db : DB)
    (questionId : ℕ) (answerText : String) (responseTimeMs : Option ℕ)
    (evalOutcome : Except JsError EvaluationResult)
    (genOutcome : Except JsError GeneratedQuestion)
    (now : ℤ) : Except JsError AnswerResult × DB :=
  if sessionOk = false then (.error ⟨"Session not found"⟩, db)
  else
    match db.interviews.find? (fun i => i.status == InterviewStatus.in_progress) with
    | none => (.error ⟨"No active interview found"⟩, db)
    | some interview =>
      match db.questions.find? (fun q => q.id == questionId) with
      | none => (.error ⟨"Question not found"⟩, db)
      | some question =>
        if question.interview_id ≠ interview.id then
          (.error ⟨"Question not found"⟩, db)
        else
          match jdData with
          | none => (.error ⟨"Session data not found"⟩, db)
          | some jdAreas =>
            match evalOutcome with
            | .error e => (.error e, db)
            | .ok evalResult =>
              processAnswerCore cfg jdAreas db interview question questionId
                answerText responseTimeMs evalResult genOutcome now

/-- The existing-interview check of `startInterview` (lines 279-285):
`Interview.findOne({ session_id })` followed by `destroy()`, whose
`onDelete: CASCADE` associations also remove the interview's questions and
those questions' answers. -/
def destroyExisting (db : DB) : DB :=
  match db.interviews.head? with
  | none => db
  | some existing =>
    let removedQ := db.questions.filter
      (fun q => (q : QuestionRec).interview_id == existing.id)
    { db with
      interviews := db.interviews.filter (fun i => i.id != existing.id),
      questions := db.questions.filter (fun q => q.interview_id != existing.id),
      answers := db.answers.filter (fun a =>
        !(removedQ.any fun q => q.id == a.question_id)) }

/-- `startInterview` (`interview-engine.ts` lines 253-334): look up session
and parsed data; destroy any existing interview for the session (the
`onDelete: CASCADE` associations also remove its questions and their
answers); build the plan and initial state; create the interview row; then
generate and store the first question for `competency_areas[0]`.  An empty
competency list makes `competency_areas[0]` undefined, and the subsequent
property accesses inside question generation throw a `TypeError` — after the
interview row was already created. -/
def startInterview (cfg : InterviewConfig) (sessionOk : Bool)
    (parsedData : Option (List CompetencyArea))
    (genOutcome : Except JsError GeneratedQuestion)
    (now : ℤ) (db : DB) : Except JsError StartResult × DB :=
  if sessionOk = false then (.error ⟨"Session not found"⟩, db)
  else
    match parsedData with
    | none => (.error ⟨"CV and JD must be parsed before starting interview"⟩, db)
    | some jdAreas =>
      let db0 := destroyExisting db
      let questionPlan := generateQuestionPlan jdAreas cfg.maxQuestions
      let interviewState := initializeInterviewState questionPlan
      let interview : InterviewRec :=
        { id := db0.next_interview_id, status := .in_progress,
          question_plan := questionPlan, interview_state := interviewState,
          started_at := some now }
      let db1 := { db0 with
        interviews := (interview :: db0.interviews),
        next_interview_id := db0.next_interview_id + 1 }
      match jdAreas.head? with
      | none => (.error ⟨"TypeError: Cannot read properties of undefined"⟩, db1)
      | some firstCompetency =>
        match genOutcome with
        | .error e => (.error e, db1)
        | .ok generatedQuestion =>
          let question : QuestionRec :=
            { id := db1.next_question_id, interview_id := interview.id,
              parent_id := none, sequence_num := 1,
              competency := generatedQuestion.competency,
              question_text := generatedQuestion.question_text,
              depth_level := 0 }
          let db2 := { db1 with
            questions := db1.questions ++ [question],
            next_question_id := db1.next_question_id + 1,
            session_status := "interviewing" }
          (.ok { interviewId := interview.id, questionId := question.id,
                 questionText := question.question_text,
                 questionCompetency := question.competency,
                 progress := { current := 1,
                               estimated_total := questionPlan.total_planned_questions,
                               competency := firstCompetency.name } }, db2)

/-- Response body of `POST /api/interview/finish`. -/
structure FinishResponse where
  interviewId : ℕ
  status : String
  duration_minutes : ℤ
  total_questions : ℤ
  message : String
deriving DecidableEq

/-- The finish endpoint (`/api/interview/finish`, lines 852-965 of the route
source): find the most recent interview; compute
`Math.round((now - startedAt) / 1000 / 60)` from the current wall clock
`now`; update status and `completed_at` only when the interview is not
already completed; reply with the hard-coded `'completed'` status and
`state.total_questions || plan.total_planned_questions`. -/
def finishInterview (sessionOk : Bool) (now createdAt : ℤ) (db : DB) :
    Except JsError FinishResponse × DB :=
  if sessionOk = false then (.error ⟨"Session not found or has expired"⟩, db)
  else
    match db.interviews.head? with
    | none => (.error ⟨"No interview found for this session"⟩, db)
    | some interview =>
      let startedAt := interview.started_at.getD createdAt
      let durationMinutes := jsRound (((now - startedAt : ℤ) : ℚ) / 1000 / 60)
      let state := interview.interview_state
      let plan := interview.question_plan
      let db1 :=
        if interview.status ≠ InterviewStatus.completed then
          { db with
            interviews := db.interviews.map (fun i =>
              if i.id == interview.id then
                { i with status := .completed, completed_at := some now }
              else i),
            session_status := "completed" }
        else db
      (.ok { interviewId := interview.id, status := "completed",
             duration_minutes := durationMinutes,
             total_questions :=
               if state.total_questions == 0 then plan.total_planned_questions
               else (state.total_questions : ℤ),
             message := "Interview completed successfully. Summary generation available." },
       db1)

/-- The per-call inputs of one `submitAnswer` turn (request fields plus the
oracle outcomes of this turn's backend calls). -/
structure CallInput where
  questionId : ℕ
  answerText : String
  responseTimeMs : Option ℕ
  evalOutcome : Except JsError EvaluationResult
  genOutcome : Except JsError GeneratedQuestion
  now : ℤ

/-- Run a sequence of `submitAnswer` calls, requiring every call to succeed
with `isComplete = false`; `none` as soon as a call fails or completes the
interview. -/
def runIncomplete (cfg : InterviewConfig) (jdData : Option (List CompetencyArea)) :
    List CallInput → DB → Option DB
  | [], db => some db
  | c :: cs, db =>
    match processAnswer cfg true jdData db c.questionId c.answerText
      c.responseTimeMs c.evalOutcome c.genOutcome c.now with
    | (.ok r, db2) => if r.isComplete then none else runIncomplete cfg jdData cs db2
    | (.error _, _) => none

/-! ## Theorems -/

/-- C1: `determineNextAction` applies exactly the spec's priority order —
advance when `overall_score ≥ 4` or `depth ≥ maxDepth`; else follow_up
(clarify) when `overall_score ≤ 2` and `depth < maxDepth`; else follow_up
(probe) when `overall_score = 3`, `depth < maxDepth` and the suggestion is
probe; else advance.  In particular score `1.5` at depth 0 with `maxDepth` 3
yields follow_up(clarify), and score `4.2` at depth 1 yields advance. -/
theorem determineNextAction_matches_spec :
    (∀ (e : EvaluationResult) (d maxDepth : ℕ),
        determineNextAction e d maxDepth =
          decideSpec e.overall_score d maxDepth e.suggested_follow_up)
    ∧ (∀ (r dp a ex c : ℚ) (reas : String) (sug : SuggestedFollowUp)
        (kp mo : List String),
        determineNextAction ⟨r, dp, a, ex, c, 3/2, reas, sug, kp, mo⟩ 0 3 =
          { action := .follow_up, followUpType := some .clarify })
    ∧ (∀ (r dp a ex c : ℚ) (reas : String) (sug : SuggestedFollowUp)
        (kp mo : List String),
        determineNextAction ⟨r, dp, a, ex, c, 21/5, reas, sug, kp, mo⟩ 1 3 =
          { action := .next_question }) := by
  refine ⟨fun e d m => rfl, fun r dp a ex c reas sug kp mo => ?_,
    fun r dp a ex c reas sug kp mo => ?_⟩
  · cases sug <;> norm_num [determineNextAction]
  · cases sug <;> norm_num [determineNextAction]

/-- A backend evaluation payload with an out-of-range dimension score and an
out-of-range overall score, as the robustness spec worries about. -/
def badEvalPayload : EvaluationResult :=
  ⟨10, 1, 1, 1, 1, 7, "", .noSuggestion, [], []⟩

/-- C3 counterexample: on a payload with `relevance = 10` and
`overall_score = 7`, the normalized result keeps `relevance = 10` (no
per-dimension clamping) and sets `overall_score = 5` (the clamped
backend-supplied overall), which is not the mean `9/5` of the clamped
dimensions — so the claimed normalization does not hold. -/
theorem evaluateResponse_claim_false :
    ¬((evaluateResponse badEvalPayload).relevance ≤ 5 ∧
      (evaluateResponse badEvalPayload).overall_score =
        (clampScore badEvalPayload.relevance + clampScore badEvalPayload.depth
          + clampScore badEvalPayload.accuracy
          + clampScore badEvalPayload.examples
          + clampScore badEvalPayload.communication) / 5) := by
  decide

/-- C3 amended: `evaluateResponse` passes all five dimension scores (and the
reasoning and follow-up suggestion) through unchanged, and its only
normalization is clamping the backend-supplied `overall_score` to `[1,5]`;
the overall score is not recomputed from the dimensions. -/
theorem evaluateResponse_clamps_only_overall (r : EvaluationResult) :
    (evaluateResponse r).relevance = r.relevance
    ∧ (evaluateResponse r).depth = r.depth
    ∧ (evaluateResponse r).accuracy = r.accuracy
    ∧ (evaluateResponse r).examples = r.examples
    ∧ (evaluateResponse r).communication = r.communication
    ∧ (evaluateResponse r).reasoning = r.reasoning
    ∧ (evaluateResponse r).suggested_follow_up = r.suggested_follow_up
    ∧ (evaluateResponse r).overall_score = clampScore r.overall_score
    ∧ 1 ≤ (evaluateResponse r).overall_score
    ∧ (evaluateResponse r).overall_score ≤ 5 :=
  ⟨rfl, rfl, rfl, rfl, rfl, rfl, rfl, rfl, le_max_left _ _,
    max_le (by norm_num) (min_le_left _ _)⟩

/-- C4: for a non-empty competency list, every planned entry carries
`max(1, round(normalized_weight * T))` questions (normalizing by the weight
sum, or uniformly when the sum is 0), the recorded total is the actual sum
of the per-area counts, and every area gets at least one question. -/
theorem generateQuestionPlan_spec (areas : List CompetencyArea)
    (targetTotal : ℕ) (hne : areas ≠ []) :
    (generateQuestionPlan areas targetTotal).competencies = areas.map (fun comp =>
      { name := comp.name, weight := comp.weight,
        planned_questions := max 1 (jsRound
          ((if (areas.map CompetencyArea.weight).sum > 0
            then comp.weight / (areas.map CompetencyArea.weight).sum
            else 1 / (areas.length : ℚ)) * targetTotal)),
        skills_to_cover := comp.skills })
    ∧ (generateQuestionPlan areas targetTotal).total_planned_questions =
        ((generateQuestionPlan areas targetTotal).competencies.map
          PlannedCompetency.planned_questions).sum
    ∧ ∀ pc ∈ (generateQuestionPlan areas targetTotal).competencies,
        1 ≤ pc.planned_questions := by
  refine ⟨rfl, rfl, ?_⟩
  intro pc hpc
  simp only [generateQuestionPlan, List.mem_map] at hpc
  obtain ⟨a, _, rfl⟩ := hpc
  exact le_max_left _ _

/-- Scenario A of the spec: two areas of weight `0.5` each. -/
def scenarioAreas : List CompetencyArea := [⟨"A", 1/2, []⟩, ⟨"B", 1/2, []⟩]

/-- C4 witness: scenario A — two areas of weight 0.5 with target 4 get 2
questions each, total 4, and the general theorem applies to it. -/
theorem generateQuestionPlan_spec_witness :
    scenarioAreas ≠ []
    ∧ ((generateQuestionPlan scenarioAreas 4).competencies.map
        PlannedCompetency.planned_questions = [2, 2]
      ∧ (generateQuestionPlan scenarioAreas 4).total_planned_questions = 4)
    ∧ (∀ pc ∈ (generateQuestionPlan scenarioAreas 4).competencies,
        1 ≤ pc.planned_questions) :=
  ⟨by decide,
    ⟨by simp [generateQuestionPlan, scenarioAreas, jsRound]; norm_num,
     by simp [generateQuestionPlan, scenarioAreas, jsRound]; norm_num⟩,
    (generateQuestionPlan_spec scenarioAreas 4 (by decide)).2.2⟩

/-- A backend that is unreachable on every attempt. -/
def unreachableBackend : ℕ → ℕ → BackendOutcome :=
  fun _ _ => .failure ("fetch failed")

/-- A parse that always rejects (payload never matches the expected shape). -/
def failingParse : String → Except JsError EvaluationResult :=
  fun _ => .error ⟨"Unexpected token u in JSON at position 0"⟩

/-- C5 counterexample: with the backend unreachable on every attempt, both
retry budgets exhaust and the gateway throws plain `Error`s — there is no
typed `GenerationUnavailable` / `MalformedGenerationOutput` result anywhere
in the code; `generateJSON` even reports the unreachable-backend case under
its generic JSON-failure message, so the two causes are not distinguished as
values. -/
theorem generateJSON_throws_untyped :
    generateJSON unreachableBackend failingParse 3 =
      .error ⟨"Failed to get valid JSON from Ollama: Ollama failed after 3 attempts: fetch failed"⟩
    ∧ generateCompletion (fun _ => BackendOutcome.failure ("fetch failed")) 3 =
      .error ⟨"Ollama failed after 3 attempts: fetch failed"⟩ :=
  ⟨rfl, rfl⟩

/-- Helper: if every inner attempt listed in `l` fails, the `generateJSON`
loop ends in the thrown generic error. -/
theorem generateJSONGo_all_fail {α : Type} (backend : ℕ → ℕ → BackendOutcome)
    (parse : String → Except JsError α) (maxRetries : ℕ) (l : List ℕ)
    (h : ∀ i ∈ l, innerAttemptFails backend parse maxRetries i = true) :
    ∀ lastError : Option String, ∃ s,
      generateJSONGo backend parse maxRetries l lastError =
        .error ⟨"Failed to get valid JSON from Ollama: " ++ s⟩ := by
  induction l with
  | nil => exact fun lastError => ⟨lastError.getD ("undefined"), rfl⟩
  | cons i rest ih =>
    intro lastError
    have hi := h i (List.mem_cons_self i rest)
    have hrest : ∀ j ∈ rest, innerAttemptFails backend parse maxRetries j = true :=
      fun j hj => h j (List.mem_cons_of_mem i hj)
    unfold generateJSONGo
    unfold innerAttemptFails at hi
    cases hgc : generateCompletion (backend i) maxRetries with
    | error e => simpa using ih hrest (some e.message)
    | ok body =>
      rw [hgc] at hi
      simp only at hi
      cases hp : parse body with
      | ok v => rw [hp] at hi; simp at hi
      | error e => simpa [hp] using ih hrest (some e.message)

/-- C5 amended: when every inner parse attempt fails (each either exhausts
the outer backend-retry loop or yields an unparsable payload), `generateJSON`
signals failure by throwing an untyped `Error` whose message starts with the
generic `Failed to get valid JSON from Ollama: ` text; no typed failure
value is produced and the two failure causes are distinguished only by the
message text. -/
theorem generateJSON_exhaustion_throws {α : Type}
    (backend : ℕ → ℕ → BackendOutcome) (parse : String → Except JsError α)
    (maxRetries : ℕ)
    (h : ∀ i, i < 3 → innerAttemptFails backend parse maxRetries i = true) :
    ∃ s, generateJSON backend parse maxRetries =
      .error ⟨"Failed to get valid JSON from Ollama: " ++ s⟩ := by
  refine generateJSONGo_all_fail backend parse maxRetries (List.range 3) ?_ none
  intro i hi
  exact h i (List.mem_range.mp hi)

/-- C5 witness: the amended theorem applied to the always-unreachable
backend. -/
theorem generateJSON_exhaustion_throws_witness :
    ∃ s, generateJSON unreachableBackend failingParse 3 =
      .error ⟨"Failed to get valid JSON from Ollama: " ++ s⟩ :=
  generateJSON_exhaustion_throws unreachableBackend failingParse 3 (by decide)

/-! ## Concrete orchestrator fixtures -/

/-- Whether a call returned normally (did not throw). -/
def exceptIsOk {ε α : Type} : Except ε α → Bool
  | .ok _ => true
  | .error _ => false

/-- A one-competency question plan. -/
def demoPlan : QuestionPlan :=
  { competencies := [⟨"Backend", 1, 5, []⟩],
    total_planned_questions := 5, estimated_duration_minutes := 20 }

/-- Interview state after one answered question in `demoPlan`. -/
def demoState : InterviewState :=
  { competencies := [("Backend", ⟨.in_progress, 1, 0, 3⟩)],
    total_questions := 1, estimated_remaining := 4,
    current_competency := "Backend" }

/-- An in-progress interview over `demoPlan`. -/
def demoInterview : InterviewRec :=
  { id := 1, status := .in_progress, question_plan := demoPlan,
    interview_state := demoState, started_at := some 0 }

/-- The first (root) question of `demoInterview`. -/
def demoQuestion : QuestionRec :=
  { id := 1, interview_id := 1, sequence_num := 1, competency := "Backend",
    question_text := "Q1", depth_level := 0 }

/-- An answer already stored for `demoQuestion` — question 1 is therefore not
the open question. -/
def demoAnswer : AnswerRec :=
  { question_id := 1, answer_text := "first", response_time_ms := none,
    evaluation := ⟨3, 3, 3, 3, 3, "", 3, none⟩, quality_score := 3 }

/-- Database in which question 1 is already answered. -/
def demoDB : DB :=
  { session_status := "interviewing", interviews := [demoInterview],
    questions := [demoQuestion], answers := [demoAnswer],
    next_interview_id := 2, next_question_id := 2 }

/-- The default interview configuration of `config.ts`. -/
def demoConfig : InterviewConfig := { maxFollowUpDepth := 3, maxQuestions := 15 }

/-- The JD competency areas matching `demoPlan`. -/
def demoJd : List CompetencyArea := [⟨"Backend", 1, []⟩]

/-- A mid-quality evaluation (all 3s, no follow-up suggestion). -/
def demoEval : EvaluationResult :=
  ⟨3, 3, 3, 3, 3, 3, "", SuggestedFollowUp.noSuggestion, [], []⟩

/-- A generated next question. -/
def demoGen : GeneratedQuestion :=
  { question_text := "Q2", competency := "Backend",
    expected_topics := [], type := "behavioral" }

/-- An empty database slice (session scored, nothing started yet). -/
def emptyJdDB : DB :=
  { session_status := "scored", interviews := [], questions := [],
    answers := [], next_interview_id := 1, next_question_id := 1 }

/-- C8 counterexample: for an empty competency list the Plan Builder does
not fail — it returns the empty plan with total 0 — and `startInterview`
creates the `in_progress` interview row before throwing the `TypeError`
from reading `competency_areas[0]`, so no `ValidationError` occurs and the
interview record is created. -/
theorem startInterview_empty_list_no_validation :
    generateQuestionPlan [] 15 =
      { competencies := [], total_planned_questions := 0,
        estimated_duration_minutes := 0 }
    ∧ exceptIsOk (startInterview demoConfig true (some []) (.ok demoGen) 0 emptyJdDB).1 = false
    ∧ ((startInterview demoConfig true (some []) (.ok demoGen) 0 emptyJdDB).2.interviews.map
        InterviewRec.status) = [InterviewStatus.in_progress] := by
  refine ⟨by decide, by decide, by decide⟩

/-- C8 amended: starting with an empty competency list is not rejected by
any validation: the Plan Builder yields the empty plan, `startInterview`
creates the interview row (it is the head of the resulting interviews
table), and only afterwards the call throws an untyped `TypeError`, so the
error surfaces after the interview came into existence. -/
theorem startInterview_empty_creates_then_throws (cfg : InterviewConfig)
    (gen : Except JsError GeneratedQuestion) (now : ℤ) (db : DB) :
    generateQuestionPlan [] cfg.maxQuestions =
      { competencies := [], total_planned_questions := 0,
        estimated_duration_minutes := 0 }
    ∧ (startInterview cfg true (some []) gen now db).1 =
        .error ⟨"TypeError: Cannot read properties of undefined"⟩
    ∧ (startInterview cfg true (some []) gen now db).2.interviews.head? =
        some { id := (destroyExisting db).next_interview_id,
               status := .in_progress,
               question_plan := generateQuestionPlan [] cfg.maxQuestions,
               interview_state :=
                 initializeInterviewState (generateQuestionPlan [] cfg.maxQuestions),
               started_at := some now } := by
  refine ⟨rfl, rfl, rfl⟩

/-- The fields of a finish response that do not depend on the wall clock. -/
def finishResponseStable : Except JsError FinishResponse →
    Option (ℕ × String × ℤ × String)
  | .ok r => some (r.interviewId, r.status, r.total_questions, r.message)
  | .error _ => none

/-- The wall-clock-derived field of a finish response. -/
def finishDuration : Except JsError FinishResponse → Option ℤ
  | .ok r => some r.duration_minutes
  | .error _ => none

/-- `demoInterview` after completion. -/
def completedInterview : InterviewRec :=
  { id := 1, status := .completed, question_plan := demoPlan,
    interview_state := demoState, started_at := some 0, completed_at := some 10 }

/-- Database holding only the completed interview. -/
def completedDB : DB :=
  { session_status := "completed", interviews := [completedInterview],
    questions := [demoQuestion], answers := [demoAnswer],
    next_interview_id := 2, next_question_id := 2 }

/-- C9 counterexample: on an already-completed interview a second finish
request indeed mutates nothing, but its response is not identical to the
first one — `duration_minutes` is recomputed from the current wall clock
(here: 0 minutes at the first call, 1 minute at a call 60 s later). -/
theorem finish_second_call_differs :
    (finishInterview true 0 0 completedDB).2 = completedDB
    ∧ finishDuration (finishInterview true 0 0 completedDB).1 = some 0
    ∧ finishDuration (finishInterview true 60000 0
        ((finishInterview true 0 0 completedDB).2)).1 = some 1
    ∧ (finishInterview true 60000 0 ((finishInterview true 0 0 completedDB).2)).1
        ≠ (finishInterview true 0 0 completedDB).1 := by
  have h1 : finishDuration (finishInterview true 0 0 completedDB).1 = some 0 := by
    simp [finishInterview, completedDB, completedInterview, finishDuration, jsRound]
    norm_num
  have h0 : (finishInterview true 0 0 completedDB).2 = completedDB := rfl
  have h2 : finishDuration (finishInterview true 60000 0
      ((finishInterview true 0 0 completedDB).2)).1 = some 1 := by
    rw [h0]
    simp [finishInterview, completedDB, completedInterview, finishDuration, jsRound]
    norm_num
  refine ⟨h0, h1, h2, fun h => ?_⟩
  have := congrArg finishDuration h
  rw [h1, h2] at this
  exact Option.noConfusion this (fun h01 => by norm_num at h01)

/-- C9 amended: a second finish request on a completed interview performs
zero mutation and returns the same interview id, status, total-question
count and message as the first; only `duration_minutes`, recomputed from the
current wall clock, can differ, and two finish calls at the same instant
return identical responses. -/
theorem finishEarly_idempotent_up_to_clock (now1 now2 createdAt : ℤ)
    (db : DB) (itv : InterviewRec)
    (hhead : db.interviews.head? = some itv)
    (hdone : itv.status = InterviewStatus.completed) :
    (finishInterview true now1 createdAt db).2 = db
    ∧ finishResponseStable (finishInterview true now2 createdAt db).1 =
        finishResponseStable (finishInterview true now1 createdAt db).1
    ∧ (now1 = now2 →
        (finishInterview true now2 createdAt db).1 =
          (finishInterview true now1 createdAt db).1) := by
  refine ⟨?_, ?_, fun h => by rw [h]⟩
  · simp [finishInterview, hhead, hdone]
  · simp [finishInterview, hhead, hdone, finishResponseStable]

/-- C9 witness: the amended idempotence theorem applied to the concrete
completed interview, at two different call times. -/
theorem finishEarly_idempotent_up_to_clock_witness :
    (finishInterview true 0 0 completedDB).2 = completedDB
    ∧ finishResponseStable (finishInterview true 60000 0 completedDB).1 =
        finishResponseStable (finishInterview true 0 0 completedDB).1 :=
  ⟨(finishEarly_idempotent_up_to_clock 0 60000 0 completedDB
      completedInterview rfl rfl).1,
   (finishEarly_idempotent_up_to_clock 0 60000 0 completedDB
      completedInterview rfl rfl).2.1⟩

/-- C10: when the session already has an interview (whatever its status),
`startInterview` destroys it — no row with its id survives, on any path,
even when question generation later fails — and puts a brand-new
`in_progress` interview with a freshly computed plan and state at the head
of the table; the presence of the old interview never causes a rejection
(with a nonempty competency list and successful generation the call
returns normally). -/
theorem startInterview_replaces_existing (cfg : InterviewConfig)
    (areas : List CompetencyArea) (gen : Except JsError GeneratedQuestion)
    (now : ℤ) (db : DB) (existing : InterviewRec)
    (hhead : db.interviews.head? = some existing)
    (hfresh : db.next_interview_id ≠ existing.id) :
    ((startInterview cfg true (some areas) gen now db).2.interviews.countP
        (fun i => i.id == existing.id)) = 0
    ∧ (startInterview cfg true (some areas) gen now db).2.interviews.head? =
        some { id := db.next_interview_id, status := .in_progress,
               question_plan := generateQuestionPlan areas cfg.maxQuestions,
               interview_state :=
                 initializeInterviewState (generateQuestionPlan areas cfg.maxQuestions),
               started_at := some now }
    ∧ (∀ a g, areas.head? = some a → gen = .ok g →
        exceptIsOk (startInterview cfg true (some areas) gen now db).1 = true) := by
  have hdb0 : destroyExisting db =
      { db with
        interviews := db.interviews.filter (fun i => i.id != existing.id),
        questions := db.questions.filter (fun q => q.interview_id != existing.id),
        answers := db.answers.filter (fun a =>
          !((db.questions.filter
              (fun q => (q : QuestionRec).interview_id == existing.id)).any
            fun q => q.id == a.question_id)) } := by
    unfold destroyExisting
    rw [hhead]
  have hinterviews : (startInterview cfg true (some areas) gen now db).2.interviews =
      ({ id := db.next_interview_id, status := .in_progress,
         question_plan := generateQuestionPlan areas cfg.maxQuestions,
         interview_state :=
           initializeInterviewState (generateQuestionPlan areas cfg.maxQuestions),
         started_at := some now } : InterviewRec)
        :: db.interviews.filter (fun i => i.id != existing.id) := by
    unfold startInterview
    rw [hdb0]
    cases areas with
    | nil => rfl
    | cons x rest =>
      cases gen with
      | error e => rfl
      | ok g => rfl
  refine ⟨?_, ?_, ?_⟩
  · rw [hinterviews, List.countP_cons]
    have h1 : (db.interviews.filter (fun i => i.id != existing.id)).countP
        (fun i => i.id == existing.id) = 0 := by
      rw [List.countP_eq_zero]
      intro a ha
      have := List.of_mem_filter ha
      simpa using this
    simp [h1, hfresh]
  · rw [hinterviews]; rfl
  · intro a g ha hg
    subst hg
    cases areas with
    | nil => simp at ha
    | cons x rest => rfl

/-- C10 witness: replacing the existing in-progress interview of `demoDB`
(id 1) with a fresh one (id 2). -/
theorem startInterview_replaces_existing_witness :
    ((startInterview demoConfig true (some demoJd) (.ok demoGen) 7 demoDB).2.interviews.countP
        (fun i => i.id == demoInterview.id)) = 0
    ∧ (∀ a g, demoJd.head? = some a → (Except.ok demoGen : Except JsError GeneratedQuestion) = .ok g →
        exceptIsOk (startInterview demoConfig true (some demoJd) (.ok demoGen) 7 demoDB).1 = true) :=
  ⟨(startInterview_replaces_existing demoConfig demoJd (.ok demoGen) 7 demoDB
      demoInterview rfl (by decide)).1,
   (startInterview_replaces_existing demoConfig demoJd (.ok demoGen) 7 demoDB
      demoInterview rfl (by decide)).2.2⟩

/-- In every branch of `processAnswerCore` — follow-up, next root question,
interview end, or a generation throw — the stored `Answer` row from the
start of the turn stays appended to the answers table. -/
theorem processAnswerCore_answers (cfg : InterviewConfig)
    (jdAreas : List CompetencyArea) (db : DB) (interview : InterviewRec)
    (question : QuestionRec) (questionId : ℕ) (answerText : String)
    (rt : Option ℕ) (er : EvaluationResult)
    (gen : Except JsError GeneratedQuestion) (now : ℤ) :
    (processAnswerCore cfg jdAreas db interview question questionId answerText
        rt er gen now).2.answers
      = db.answers ++ [{ question_id := questionId, answer_text := answerText,
                         response_time_ms := rt,
                         evaluation := mkAnswerEvaluation er,
                         quality_score := jsRound er.overall_score }] := by
  unfold processAnswerCore
  dsimp only
  repeat' (first | rfl | split)

/-- C2 counterexample: in `demoDB` question 1 already has an answer (so it is
not the open question), yet submitting a second answer against it is
accepted — `processAnswer` returns normally, a second `Answer` row is
stored, and the interview state is mutated (`total_questions` 1 → 2).  No
`InvariantViolation` occurs. -/
theorem processAnswer_nonopen_accepted :
    demoDB.answers.countP (fun a => a.question_id == 1) = 1
    ∧ exceptIsOk (processAnswer demoConfig true (some demoJd) demoDB 1 "again"
        none (.ok demoEval) (.ok demoGen) 100).1 = true
    ∧ (processAnswer demoConfig true (some demoJd) demoDB 1 "again"
        none (.ok demoEval) (.ok demoGen) 100).2.answers.length = 2
    ∧ ((processAnswer demoConfig true (some demoJd) demoDB 1 "again"
        none (.ok demoEval) (.ok demoGen) 100).2.interviews.map
          (fun i => i.interview_state.total_questions)) = [2] :=
  ⟨rfl, rfl, rfl, rfl⟩

/-- C2 amended: `processAnswer` rejects a submission with `Question not
found` (and no mutation) exactly when the question id does not exist or
belongs to a different interview; any question id of the active interview —
including one that already has an answer and is therefore not the open
question — is accepted, and the new `Answer` row is appended whatever
happens afterwards in the turn.  There is no open-question check and no
`InvariantViolation`. -/
theorem processAnswer_no_open_question_check (cfg : InterviewConfig)
    (jdAreas : List CompetencyArea) (db : DB) (questionId : ℕ)
    (answerText : String) (rt : Option ℕ) (er : EvaluationResult)
    (gen : Except JsError GeneratedQuestion) (now : ℤ) (interview : InterviewRec)
    (hI : db.interviews.find? (fun i => i.status == InterviewStatus.in_progress)
        = some interview) :
    (db.questions.find? (fun q => q.id == questionId) = none →
      processAnswer cfg true (some jdAreas) db questionId answerText rt
          (.ok er) gen now
        = (.error ⟨"Question not found"⟩, db))
    ∧ (∀ q, db.questions.find? (fun q2 => q2.id == questionId) = some q →
        q.interview_id ≠ interview.id →
        processAnswer cfg true (some jdAreas) db questionId answerText rt
            (.ok er) gen now
          = (.error ⟨"Question not found"⟩, db))
    ∧ (∀ q, db.questions.find? (fun q2 => q2.id == questionId) = some q →
        q.interview_id = interview.id →
        (processAnswer cfg true (some jdAreas) db questionId answerText rt
            (.ok er) gen now).2.answers
          = db.answers ++ [{ question_id := questionId,
                             answer_text := answerText,
                             response_time_ms := rt,
                             evaluation := mkAnswerEvaluation er,
                             quality_score := jsRound er.overall_score }]) := by
  refine ⟨fun hnone => ?_, fun q hq hne => ?_, fun q hq heq => ?_⟩
  · unfold processAnswer
    simp [hI, hnone]
  · unfold processAnswer
    simp [hI, hq, hne]
  · unfold processAnswer
    simp [hI, hq, heq, processAnswerCore_answers]

/-- C2 witness: the amended theorem applied to the concrete database in
which question 1 is already answered — the second answer is appended. -/
theorem processAnswer_no_open_question_check_witness :
    (processAnswer demoConfig true (some demoJd) demoDB 1 "again" none
        (.ok demoEval) (.ok demoGen) 100).2.answers
      = demoDB.answers ++ [{ question_id := 1, answer_text := "again",
                             response_time_ms := none,
                             evaluation := mkAnswerEvaluation demoEval,
                             quality_score := jsRound demoEval.overall_score }] :=
  (processAnswer_no_open_question_check demoConfig demoJd demoDB 1 "again"
    none demoEval (.ok demoGen) 100 demoInterview rfl).2.2 demoQuestion rfl rfl

/-- The `isComplete` flag of a normal return (`false` for a throw). -/
def resultIsComplete : Except JsError AnswerResult → Bool
  | .ok r => r.isComplete
  | .error _ => false

/-- A follow-up decision is only ever made below the depth limit: rules 2
and 3 of `determineNextAction` both require `currentDepth < maxDepth`. -/
theorem determineNextAction_followUp_lt (e : EvaluationResult) (d m : ℕ)
    (h : (determineNextAction e d m).action = ActionKind.follow_up) : d < m := by
  by_contra hge
  unfold determineNextAction at h
  dsimp only at h
  rw [if_pos (Or.inr (Nat.le_of_not_lt hge))] at h
  exact absurd h (by simp)

/-- `find?` on a cons whose head satisfies the predicate. -/
theorem find?_cons_true {α : Type} (p : α → Bool) (a : α) (l : List α)
    (h : p a = true) : (a :: l).find? p = some a := by
  simp [List.find?, h]

/-- `find?` on a cons whose head fails the predicate. -/
theorem find?_cons_false {α : Type} (p : α → Bool) (a : α) (l : List α)
    (h : p a = false) : (a :: l).find? p = l.find? p := by
  simp [List.find?, h]

/-- Updating the active interview row in place (same id, still
`in_progress`) keeps it the first `in_progress` row found. -/
theorem find?_inprogress_map (interview interview2 : InterviewRec)
    (hid : interview2.id = interview.id)
    (hst : interview2.status = InterviewStatus.in_progress) :
    ∀ l : List InterviewRec,
      l.find? (fun i => i.status == InterviewStatus.in_progress) = some interview →
      (l.map (fun i => if i.id == interview.id then interview2 else i)).find?
          (fun i => i.status == InterviewStatus.in_progress) = some interview2 := by
  intro l
  induction l with
  | nil => intro h; simp at h
  | cons a tl ih =>
    intro h
    by_cases ha : (a.status == InterviewStatus.in_progress) = true
    · rw [find?_cons_true _ a tl ha] at h
      have haeq : a = interview := Option.some.inj h
      subst haeq
      simp only [List.map_cons]
      rw [if_pos (by simp)]
      exact find?_cons_true _ _ _ (by simp [hst])
    · have ha2 : (a.status == InterviewStatus.in_progress) = false :=
        Bool.eq_false_iff.mpr ha
      rw [find?_cons_false _ a tl ha2] at h
      simp only [List.map_cons]
      by_cases hida : (a.id == interview.id) = true
      · rw [if_pos hida]
        exact find?_cons_true _ _ _ (by simp [hst])
      · rw [if_neg hida]
        rw [find?_cons_false _ a _ ha2]
        exact ih h


/-- Shape of one `processAnswerCore` turn: either the questions table is
untouched (error or completed turn — and a normal return then reports
`isComplete`), or the turn ran below the question cap, returned an
incomplete result, and appended exactly one question of this interview —
a root question (depth 0) or a follow-up at `depth + 1` backed by a
follow-up decision — while updating only the active interview row. -/
theorem processAnswerCore_shape (cfg : InterviewConfig)
    (jdAreas : List CompetencyArea) (db : DB) (interview : InterviewRec)
    (question : QuestionRec) (questionId : ℕ) (answerText : String)
    (rt : Option ℕ) (er : EvaluationResult)
    (gen : Except JsError GeneratedQuestion) (now : ℤ) :
    ∀ res db2,
      (res, db2) = processAnswerCore cfg jdAreas db interview question
        questionId answerText rt er gen now →
      (db2.questions = db.questions
        ∧ (exceptIsOk res = true → resultIsComplete res = true))
      ∨ (qCount db interview.id < cfg.maxQuestions
        ∧ exceptIsOk res = true
        ∧ resultIsComplete res = false
        ∧ ∃ nq st2,
            db2.questions = db.questions ++ [nq]
            ∧ nq.interview_id = interview.id
            ∧ (nq.depth_level = 0
              ∨ (nq.depth_level = question.depth_level + 1
                ∧ (determineNextAction er question.depth_level
                    cfg.maxFollowUpDepth).action = ActionKind.follow_up))
            ∧ db2.interviews = db.interviews.map (fun i =>
                if i.id == interview.id
                then { interview with interview_state := st2 } else i)) := by
  intro res db2 hres
  unfold processAnswerCore at hres
  dsimp only at hres
  split at hres
  case isTrue hend =>
    rw [Prod.mk.injEq] at hres
    obtain ⟨hr, hd⟩ := hres
    subst hr; subst hd
    exact Or.inl ⟨rfl, fun _ => rfl⟩
  case isFalse hnotend =>
    have hlt : qCount db interview.id < cfg.maxQuestions := by
      push_neg at hnotend
      exact Nat.lt_of_not_le (fun hc => (Nat.not_le.mpr hnotend.1) hc)
    split at hres
    case h_1 fut hact hfut =>
      cases gen with
      | error e =>
        rw [Prod.mk.injEq] at hres
        obtain ⟨hr, hd⟩ := hres
        subst hr; subst hd
        exact Or.inl ⟨rfl, fun h => by simp [exceptIsOk] at h⟩
      | ok g =>
        rw [Prod.mk.injEq] at hres
        obtain ⟨hr, hd⟩ := hres
        subst hr; subst hd
        refine Or.inr ⟨hlt, rfl, rfl, _, _, rfl, rfl, Or.inr ⟨rfl, hact⟩, rfl⟩
    case h_2 hmatch =>
      split at hres
      case isTrue hstay =>
        split at hres
        case h_1 htgt =>
          rw [Prod.mk.injEq] at hres
          obtain ⟨hr, hd⟩ := hres
          subst hr; subst hd
          exact Or.inl ⟨rfl, fun h => by simp [exceptIsOk] at h⟩
        case h_2 target htgt =>
          cases gen with
          | error e =>
            rw [Prod.mk.injEq] at hres
            obtain ⟨hr, hd⟩ := hres
            subst hr; subst hd
            exact Or.inl ⟨rfl, fun h => by simp [exceptIsOk] at h⟩
          | ok g =>
            rw [Prod.mk.injEq] at hres
            obtain ⟨hr, hd⟩ := hres
            subst hr; subst hd
            refine Or.inr ⟨hlt, rfl, rfl, _, _, rfl, rfl, Or.inl rfl, rfl⟩
      case isFalse hstay =>
        split at hres
        case h_1 nextComp hnext =>
          split at hres
          case h_1 htgt =>
            rw [Prod.mk.injEq] at hres
            obtain ⟨hr, hd⟩ := hres
            subst hr; subst hd
            exact Or.inl ⟨rfl, fun h => by simp [exceptIsOk] at h⟩
          case h_2 target htgt =>
            cases gen with
            | error e =>
              rw [Prod.mk.injEq] at hres
              obtain ⟨hr, hd⟩ := hres
              subst hr; subst hd
              exact Or.inl ⟨rfl, fun h => by simp [exceptIsOk] at h⟩
            | ok g =>
              rw [Prod.mk.injEq] at hres
              obtain ⟨hr, hd⟩ := hres
              subst hr; subst hd
              refine Or.inr ⟨hlt, rfl, rfl, _, _, rfl, rfl, Or.inl rfl, rfl⟩
        case h_2 hnext =>
          rw [Prod.mk.injEq] at hres
          obtain ⟨hr, hd⟩ := hres
          subst hr; subst hd
          exact Or.inl ⟨rfl, fun _ => rfl⟩


/-- `processAnswer` either rejects with a throw and an untouched database,
or dispatches to `processAnswerCore` for the question it found in the
active interview. -/
theorem processAnswer_cases (cfg : InterviewConfig)
    (jdData : Option (List CompetencyArea)) (db : DB) (questionId : ℕ)
    (answerText : String) (rt : Option ℕ)
    (ev : Except JsError EvaluationResult)
    (gen : Except JsError GeneratedQuestion) (now : ℤ) :
    (∃ e, processAnswer cfg true jdData db questionId answerText rt ev gen now
        = (.error e, db))
    ∨ (∃ interview question jdAreas er,
        db.interviews.find? (fun i => i.status == InterviewStatus.in_progress)
          = some interview
        ∧ db.questions.find? (fun q => q.id == questionId) = some question
        ∧ question.interview_id = interview.id
        ∧ jdData = some jdAreas ∧ ev = .ok er
        ∧ processAnswer cfg true jdData db questionId answerText rt ev gen now
            = processAnswerCore cfg jdAreas db interview question questionId
                answerText rt er gen now) := by
  cases hI : db.interviews.find? (fun i => i.status == InterviewStatus.in_progress) with
  | none =>
    refine Or.inl ⟨⟨"No active interview found"⟩, ?_⟩
    unfold processAnswer
    simp [hI]
  | some interview =>
    cases hq : db.questions.find? (fun q => q.id == questionId) with
    | none =>
      refine Or.inl ⟨⟨"Question not found"⟩, ?_⟩
      unfold processAnswer
      simp [hI, hq]
    | some question =>
      by_cases hqi : question.interview_id = interview.id
      · cases jdData with
        | none =>
          refine Or.inl ⟨⟨"Session data not found"⟩, ?_⟩
          unfold processAnswer
          simp [hI, hq, hqi]
        | some jdAreas =>
          cases ev with
          | error e =>
            refine Or.inl ⟨e, ?_⟩
            unfold processAnswer
            simp [hI, hq, hqi]
          | ok er =>
            refine Or.inr ⟨interview, question, jdAreas, er, rfl, rfl, hqi,
              rfl, rfl, ?_⟩
            unfold processAnswer
            simp [hI, hq, hqi]
      · refine Or.inl ⟨⟨"Question not found"⟩, ?_⟩
        unfold processAnswer
        simp [hI, hq, hqi]


/-- Destroying an interview only removes question rows. -/
theorem destroyExisting_questions_subset (db : DB) :
    ∀ q ∈ (destroyExisting db).questions, q ∈ db.questions := by
  unfold destroyExisting
  split
  · exact fun q hq => hq
  · exact fun q hq => List.mem_of_mem_filter hq

/-- C7: (1) `determineNextAction` only chooses follow_up below the depth
limit; (2) a `processAnswer` turn preserves `depth_level ≤ maxFollowUpDepth`
across the questions table (a follow-up is created at `depth + 1` only under
a follow-up decision, which requires `depth < maxDepth`; a root question is
created at depth 0); (3) `startInterview` creates its first question at
depth 0, preserving the bound as well. -/
theorem depth_level_bounded :
    (∀ (e : EvaluationResult) (d m : ℕ),
        (determineNextAction e d m).action = ActionKind.follow_up → d < m)
    ∧ (∀ (cfg : InterviewConfig) (jdData : Option (List CompetencyArea))
        (db : DB) (questionId : ℕ) (answerText : String) (rt : Option ℕ)
        (ev : Except JsError EvaluationResult)
        (gen : Except JsError GeneratedQuestion) (now : ℤ),
        (∀ q ∈ db.questions, q.depth_level ≤ cfg.maxFollowUpDepth) →
        ∀ q ∈ (processAnswer cfg true jdData db questionId answerText rt
            ev gen now).2.questions,
          q.depth_level ≤ cfg.maxFollowUpDepth)
    ∧ (∀ (cfg : InterviewConfig) (pd : Option (List CompetencyArea))
        (gen : Except JsError GeneratedQuestion) (now : ℤ) (db : DB),
        (∀ q ∈ db.questions, q.depth_level ≤ cfg.maxFollowUpDepth) →
        ∀ q ∈ (startInterview cfg true pd gen now db).2.questions,
          q.depth_level ≤ cfg.maxFollowUpDepth) := by
  refine ⟨determineNextAction_followUp_lt, ?_, ?_⟩
  · intro cfg jdData db questionId answerText rt ev gen now hall
    rcases processAnswer_cases cfg jdData db questionId answerText rt ev gen now with
      ⟨e, heq⟩ | ⟨interview, question, jdAreas, er, hI, hq, hqi, hpd, hev, heq⟩
    · rw [heq]
      exact hall
    · rw [heq]
      rcases processAnswerCore_shape cfg jdAreas db interview question
          questionId answerText rt er gen now
          (processAnswerCore cfg jdAreas db interview question questionId
            answerText rt er gen now).1
          (processAnswerCore cfg jdAreas db interview question questionId
            answerText rt er gen now).2
          (Prod.mk.eta).symm with
        ⟨hquest, _⟩ | ⟨_, _, _, nq, st2, hquest, _, hdepth, _⟩
      · rw [hquest]
        exact hall
      · rw [hquest]
        intro q hmem
        rcases List.mem_append.mp hmem with hin | hnew
        · exact hall q hin
        · have hqeq : q = nq := List.mem_singleton.mp hnew
          subst hqeq
          rcases hdepth with h0 | ⟨hsucc, hact⟩
          · rw [h0]; exact Nat.zero_le _
          · rw [hsucc]
            exact Nat.succ_le_of_lt
              (determineNextAction_followUp_lt er question.depth_level
                cfg.maxFollowUpDepth hact)
  · intro cfg pd gen now db hall
    cases pd with
    | none => exact hall
    | some areas =>
      cases areas with
      | nil =>
        intro q hq
        rw [show (startInterview cfg true (some []) gen now db).2.questions
            = (destroyExisting db).questions from rfl] at hq
        exact hall q (destroyExisting_questions_subset db q hq)
      | cons a rest =>
        cases gen with
        | error e =>
          intro q hq
          rw [show (startInterview cfg true (some (a :: rest)) (.error e) now
              db).2.questions = (destroyExisting db).questions from rfl] at hq
          exact hall q (destroyExisting_questions_subset db q hq)
        | ok g =>
          intro q hq
          rw [show (startInterview cfg true (some (a :: rest)) (.ok g) now
                db).2.questions
              = (destroyExisting db).questions ++
                [{ id := (destroyExisting db).next_question_id,
                   interview_id := (destroyExisting db).next_interview_id,
                   parent_id := none,
                   sequence_num := 1,
                   competency := g.competency,
                   question_text := g.question_text,
                   depth_level := 0 }] from rfl] at hq
          rcases List.mem_append.mp hq with hin | hnew
          · exact hall q (destroyExisting_questions_subset db q hin)
          · have hq0 := List.mem_singleton.mp hnew
            subst hq0
            exact Nat.zero_le _


/-- A successful, not-yet-complete `submitAnswer` turn happened strictly
below the question cap, added exactly one question to the active interview,
and kept that interview (same id) as the open `in_progress` row. -/
theorem processAnswer_incomplete_step (cfg : InterviewConfig)
    (jdData : Option (List CompetencyArea)) (db : DB) (qid : ℕ)
    (ans : String) (rt : Option ℕ) (ev : Except JsError EvaluationResult)
    (gen : Except JsError GeneratedQuestion) (now : ℤ) (interview : InterviewRec)
    (hI : db.interviews.find? (fun i => i.status == InterviewStatus.in_progress)
        = some interview)
    (hok : exceptIsOk (processAnswer cfg true jdData db qid ans rt ev gen now).1 = true)
    (hinc : resultIsComplete (processAnswer cfg true jdData db qid ans rt ev gen now).1 = false) :
    qCount db interview.id < cfg.maxQuestions
    ∧ qCount (processAnswer cfg true jdData db qid ans rt ev gen now).2 interview.id
        = qCount db interview.id + 1
    ∧ ∃ interview2,
        (processAnswer cfg true jdData db qid ans rt ev gen now).2.interviews.find?
            (fun i => i.status == InterviewStatus.in_progress) = some interview2
        ∧ interview2.id = interview.id := by
  rcases processAnswer_cases cfg jdData db qid ans rt ev gen now with
    ⟨e, heq⟩ | ⟨i2, q2, jdAreas, er, hI2, hq2, hqi, hpd, hev, heq⟩
  · rw [heq] at hok
    simp [exceptIsOk] at hok
  · have hi2 : i2 = interview := by
      rw [hI] at hI2
      exact (Option.some.inj hI2).symm
    subst hi2
    rcases processAnswerCore_shape cfg jdAreas db i2 q2 qid ans rt er gen now
        (processAnswerCore cfg jdAreas db i2 q2 qid ans rt er gen now).1
        (processAnswerCore cfg jdAreas db i2 q2 qid ans rt er gen now).2
        (Prod.mk.eta).symm with
      ⟨hquest, himpl⟩ | ⟨hlt, hok2, hnc, nq, st2, hquest, hnqid, hdepth, hmap⟩
    · rw [heq] at hok hinc
      rw [himpl hok] at hinc
      exact absurd hinc (by simp)
    · refine ⟨hlt, ?_, ?_⟩
      · rw [heq]
        show ((processAnswerCore cfg jdAreas db i2 q2 qid ans rt er gen
            now).2.questions.countP (fun q => q.interview_id == i2.id)) = _
        rw [hquest, List.countP_append]
        simp [qCount, hnqid]
      · refine ⟨{ i2 with interview_state := st2 }, ?_, rfl⟩
        rw [heq]
        show ((processAnswerCore cfg jdAreas db i2 q2 qid ans rt er gen
            now).2.interviews.find? (fun i => i.status == InterviewStatus.in_progress)) = _
        rw [hmap]
        exact find?_inprogress_map i2 { i2 with interview_state := st2 } rfl
          (by
            have := List.find?_some hI
            simpa using this)
          db.interviews hI

/-- One `submitAnswer` call never pushes any interview's question count
past `maxQuestions`. -/
theorem processAnswer_count_le (cfg : InterviewConfig)
    (jdData : Option (List CompetencyArea)) (db : DB) (qid : ℕ)
    (ans : String) (rt : Option ℕ) (ev : Except JsError EvaluationResult)
    (gen : Except JsError GeneratedQuestion) (now : ℤ) (iid : ℕ)
    (hle : qCount db iid ≤ cfg.maxQuestions) :
    qCount (processAnswer cfg true jdData db qid ans rt ev gen now).2 iid
      ≤ cfg.maxQuestions := by
  rcases processAnswer_cases cfg jdData db qid ans rt ev gen now with
    ⟨e, heq⟩ | ⟨i2, q2, jdAreas, er, hI2, hq2, hqi, hpd, hev, heq⟩
  · rw [heq]
    exact hle
  · rw [heq]
    rcases processAnswerCore_shape cfg jdAreas db i2 q2 qid ans rt er gen now
        (processAnswerCore cfg jdAreas db i2 q2 qid ans rt er gen now).1
        (processAnswerCore cfg jdAreas db i2 q2 qid ans rt er gen now).2
        (Prod.mk.eta).symm with
      ⟨hquest, _⟩ | ⟨hlt, _, _, nq, st2, hquest, hnqid, _, _⟩
    · show ((processAnswerCore cfg jdAreas db i2 q2 qid ans rt er gen
          now).2.questions.countP (fun q => q.interview_id == iid)) ≤ _
      rw [hquest]
      exact hle
    · show ((processAnswerCore cfg jdAreas db i2 q2 qid ans rt er gen
          now).2.questions.countP (fun q => q.interview_id == iid)) ≤ _
      rw [hquest, List.countP_append]
      have hone : ([nq].countP (fun q => q.interview_id == iid)) ≤ 1 := by
        simp [List.countP_cons]
        split <;> simp
      by_cases hiid : iid = i2.id
      · subst hiid
        simp only [qCount] at hle hlt
        omega
      · have h0 : ([nq].countP (fun q => q.interview_id == iid)) = 0 := by
          simp [List.countP_cons, hnqid]
          exact Ne.symm hiid
        rw [h0]
        simpa [qCount] using hle


/-- A run of successful, all-incomplete `submitAnswer` calls grows the
active interview's question count by exactly its length and (when nonempty)
stays within `maxQuestions`. -/
theorem runIncomplete_bound (cfg : InterviewConfig)
    (jdData : Option (List CompetencyArea)) :
    ∀ (inputs : List CallInput) (db db2 : DB) (interview : InterviewRec),
      db.interviews.find? (fun i => i.status == InterviewStatus.in_progress)
        = some interview →
      runIncomplete cfg jdData inputs db = some db2 →
      qCount db2 interview.id = qCount db interview.id + inputs.length
      ∧ (inputs = [] ∨ qCount db2 interview.id ≤ cfg.maxQuestions) := by
  intro inputs
  induction inputs with
  | nil =>
    intro db db2 interview hI hrun
    simp only [runIncomplete] at hrun
    cases hrun
    exact ⟨by simp, Or.inl rfl⟩
  | cons c cs ih =>
    intro db db2 interview hI hrun
    unfold runIncomplete at hrun
    cases hpa : processAnswer cfg true jdData db c.questionId c.answerText
        c.responseTimeMs c.evalOutcome c.genOutcome c.now with
    | mk r dbn =>
      rw [hpa] at hrun
      cases r with
      | error e => simp at hrun
      | ok ansr =>
        dsimp only at hrun
        by_cases hc : ansr.isComplete = true
        · rw [if_pos (by simp [hc])] at hrun
          simp at hrun
        · rw [if_neg (by simp [hc])] at hrun
          have hok : exceptIsOk (processAnswer cfg true jdData db c.questionId
              c.answerText c.responseTimeMs c.evalOutcome c.genOutcome c.now).1 = true := by
            rw [hpa]
            rfl
          have hinc : resultIsComplete (processAnswer cfg true jdData db
              c.questionId c.answerText c.responseTimeMs c.evalOutcome
              c.genOutcome c.now).1 = false := by
            rw [hpa]
            simpa [resultIsComplete] using hc
          obtain ⟨hlt, hplus, interview2, hI2, hid2⟩ :=
            processAnswer_incomplete_step cfg jdData db c.questionId
              c.answerText c.responseTimeMs c.evalOutcome c.genOutcome c.now
              interview hI hok hinc
          rw [hpa] at hplus hI2
          obtain ⟨ihsum, ihbound⟩ := ih dbn db2 interview2 hI2 hrun
          rw [hid2] at ihsum ihbound
      -- combine
          refine ⟨?_, Or.inr ?_⟩
          · rw [ihsum, hplus]
            simp [List.length_cons]
            omega
          · rcases ihbound with hnil | hle2
            · subst hnil
              simp only [runIncomplete] at hrun
              cases hrun
              rw [hplus] at *
              omega
            · exact hle2


/-- A configuration with the question cap set to 1, for the termination
witness. -/
def demoConfigSmall : InterviewConfig := { maxFollowUpDepth := 3, maxQuestions := 1 }

/-- One well-formed `submitAnswer` call against `demoDB`. -/
def demoCall : CallInput :=
  { questionId := 1, answerText := "a", responseTimeMs := none,
    evalOutcome := .ok demoEval, genOutcome := .ok demoGen, now := 5 }

/-- A weak evaluation (overall 2, clarify suggested) that triggers a
follow-up. -/
def demoEvalLow : EvaluationResult :=
  ⟨2, 2, 2, 2, 2, 2, "", SuggestedFollowUp.clarify, [], []⟩

/-- C6: (1) a `submitAnswer` call keeps every interview's question count at
or below `maxQuestions`; (2) a call that finds the count already at the
maximum and returns normally reports `isComplete = true`; (3) there is no
run of `maxQuestions` successful calls all reporting `isComplete = false`
from a started interview (at least one question, positive cap) — i.e.
within `maxQuestions` turns some call completes the interview or fails. -/
theorem interview_terminates (cfg : InterviewConfig)
    (jdData : Option (List CompetencyArea)) (db : DB) (qid : ℕ) (ans : String)
    (rt : Option ℕ) (ev : Except JsError EvaluationResult)
    (gen : Except JsError GeneratedQuestion) (now : ℤ)
    (inputs : List CallInput) (interview : InterviewRec)
    (hI : db.interviews.find? (fun i => i.status == InterviewStatus.in_progress)
        = some interview) :
    (qCount db interview.id ≤ cfg.maxQuestions →
      qCount (processAnswer cfg true jdData db qid ans rt ev gen now).2
          interview.id ≤ cfg.maxQuestions)
    ∧ (cfg.maxQuestions ≤ qCount db interview.id →
        exceptIsOk (processAnswer cfg true jdData db qid ans rt ev gen now).1
            = true →
        resultIsComplete (processAnswer cfg true jdData db qid ans rt ev gen
            now).1 = true)
    ∧ (1 ≤ qCount db interview.id → 1 ≤ cfg.maxQuestions →
        inputs.length = cfg.maxQuestions →
        runIncomplete cfg jdData inputs db = none) := by
  refine ⟨fun hle => processAnswer_count_le cfg jdData db qid ans rt ev gen now
      interview.id hle, fun hge hok => ?_, fun h1 hm hlen => ?_⟩
  · by_contra hnc
    have hinc : resultIsComplete (processAnswer cfg true jdData db qid ans rt
        ev gen now).1 = false := Bool.eq_false_iff.mpr hnc
    obtain ⟨hlt, -, -⟩ := processAnswer_incomplete_step cfg jdData db qid ans
      rt ev gen now interview hI hok hinc
    omega
  · cases hrun : runIncomplete cfg jdData inputs db with
    | none => rfl
    | some db2 =>
      exfalso
      obtain ⟨hsum, hbound⟩ :=
        runIncomplete_bound cfg jdData inputs db db2 interview hI hrun
      rcases hbound with hnil | hle
      · rw [hnil] at hlen
        simp at hlen
        omega
      · rw [hlen] at hsum
        omega

/-- C6 witness: with the cap at 1 and one question already asked, a
single-call all-incomplete run is impossible. -/
theorem interview_terminates_witness :
    runIncomplete demoConfigSmall (some demoJd) [demoCall] demoDB = none :=
  (interview_terminates demoConfigSmall (some demoJd) demoDB 1 "a" none
    (.ok demoEval) (.ok demoGen) 5 [demoCall] demoInterview rfl).2.2
    (by decide) (by decide) rfl


/-- C7 witness: the preservation part applied to a turn that creates a
depth-1 follow-up in the concrete database. -/
theorem depth_level_bounded_witness :
    ∀ q ∈ (processAnswer demoConfig true (some demoJd) demoDB 1 "weak" none
        (.ok demoEvalLow) (.ok demoGen) 5).2.questions,
      q.depth_level ≤ demoConfig.maxFollowUpDepth :=
  depth_level_bounded.2.1 demoConfig (some demoJd) demoDB 1 "weak" none
    (.ok demoEvalLow) (.ok demoGen) 5 (by decide)

end Mockview
